/-
Verification of two HLT modules against their specification:
  * HLTCaloJetTimingProducer (HLTrigger/JetMET/plugins/HLTCaloJetTimingProducer.cc)
  * HLTPFDiJetCorrCheckerWithDiTau (RecoTauTag/HLTProducers/src/HLTPFDiJetCorrCheckerWithDiTau.cc)

The C++ is shallowly embedded over exact rationals (ℚ): float arithmetic is
modelled exactly, which is the reading the spec itself adopts for its algebraic
properties ("exact arithmetic").  Geometry lookups (detid → position) are
modelled by carrying the looked-up position on each hit; pseudorapidity and
azimuth of four-vectors are carried as fields (in the source they are derived
from the momentum components through transcendental functions, which the
claims never inspect).  `reco::deltaR2` is embedded as Δη² + Δφ² with azimuth
taken already reduced; the claims only compare this quantity to thresholds.
Square roots (`.M()`, `.pt()`) are eliminated by comparing monotone images:
`M() < m ⇔ signed-square of M < signed-square of m`, exactly.
-/
import Mathlib

namespace HLT

/-- Squared angular separation Δη² + Δφ², as computed by `reco::deltaR2`
(azimuthal wrap-around reduction omitted: φ inputs are taken already reduced). -/
def deltaR2 (eta1 phi1 eta2 phi2 : ℚ) : ℚ :=
  (eta1 - eta2) ^ 2 + (phi1 - phi2) ^ 2

/-! ### HLTCaloJetTimingProducer -/

/-- Geometric position of an ECAL cell, as returned by
`_pG->getPosition(detid)`: the pseudo-angular coordinates used by `deltaR2`
and the sine of the polar angle used by the Et-like weighting. -/
structure CellPosition where
  eta : ℚ
  phi : ℚ
  sinTheta : ℚ
deriving DecidableEq

/-- One ECAL rec hit: energy, time, time uncertainty, the five quality flags
that the producer tests, and the geometric position its detid resolves to. -/
structure EcalRecHit where
  energy : ℚ
  time : ℚ
  timeError : ℚ
  kSaturated : Bool
  kLeadingEdgeRecovered : Bool
  kPoorReco : Bool
  kWeird : Bool
  kDiWeird : Bool
  pos : CellPosition
deriving DecidableEq

/-- A calo jet, reduced to the direction used by the per-cell ΔR² test. -/
structure CaloJet where
  eta : ℚ
  phi : ℚ
deriving DecidableEq

/-- The configuration record of `HLTCaloJetTimingProducer`. -/
structure TimingConfig where
  barrelJets : Bool
  endcapJets : Bool
  ecalCellEnergyThresh : ℚ
  ecalCellTimeThresh : ℚ
  ecalCellTimeErrorThresh : ℚ
  matchingRadius2 : ℚ
deriving DecidableEq

/-- The accumulator triple threaded by reference through
`jetTimeFromEcalCells`: weighted-time numerator, energy sum, cell count. -/
structure Accum where
  weightedTimeCell : ℚ
  totalEmEnergyCell : ℚ
  nCells : ℕ
deriving DecidableEq

/-- One iteration of the loop body of `jetTimeFromEcalCells`: the cascade of
`continue` guards, then accumulation. -/
def cellStep (cfg : TimingConfig) (jet : CaloJet) (acc : Accum) (rh : EcalRecHit) : Accum :=
  if rh.kSaturated || rh.kLeadingEdgeRecovered || rh.kPoorReco || rh.kWeird || rh.kDiWeird then
    acc
  else if rh.energy < cfg.ecalCellEnergyThresh then
    acc
  else if rh.timeError ≤ 0 ∨ rh.timeError > cfg.ecalCellTimeErrorThresh then
    acc
  else if |rh.time| > cfg.ecalCellTimeThresh then
    acc
  else if deltaR2 jet.eta jet.phi rh.pos.eta rh.pos.phi > cfg.matchingRadius2 then
    acc
  else
    { weightedTimeCell := acc.weightedTimeCell + rh.time * rh.energy * rh.pos.sinTheta
      totalEmEnergyCell := acc.totalEmEnergyCell + rh.energy * rh.pos.sinTheta
      nCells := acc.nCells + 1 }

/-- `HLTCaloJetTimingProducer::jetTimeFromEcalCells`: scan the hit collection
into the running accumulators, then divide the weighted-time numerator by the
energy sum when the latter is positive. -/
def jetTimeFromEcalCells (cfg : TimingConfig) (jet : CaloJet) (ecalRecHits : List EcalRecHit)
    (acc : Accum) : Accum :=
  let a := ecalRecHits.foldl (cellStep cfg jet) acc
  if a.totalEmEnergyCell > 0 then
    { a with weightedTimeCell := a.weightedTimeCell / a.totalEmEnergyCell }
  else a

/-- The per-jet body of `HLTCaloJetTimingProducer::produce`: optionally scan
the barrel collection, then — if the endcap region is enabled — multiply the
weighted-time accumulator back by the energy accumulator before scanning the
endcap collection into the same running totals; emit
`(totalEmEnergyCell > 0 ? weightedTimeCell : -50, totalEmEnergyCell, nCells)`. -/
def produceJet (cfg : TimingConfig) (jet : CaloJet) (ebHits eeHits : List EcalRecHit) :
    ℚ × ℚ × ℕ :=
  let a0 : Accum := ⟨0, 0, 0⟩
  let a1 := if cfg.barrelJets then jetTimeFromEcalCells cfg jet ebHits a0 else a0
  let a2 :=
    if cfg.endcapJets then
      jetTimeFromEcalCells cfg jet eeHits
        { a1 with weightedTimeCell := a1.weightedTimeCell * a1.totalEmEnergyCell }
    else a1
  (if a2.totalEmEnergyCell > 0 then a2.weightedTimeCell else -50, a2.totalEmEnergyCell, a2.nCells)

/-- A single scan of one hit collection starting from zeroed accumulators,
followed by the one final division and the sentinel emission — the reference
"single-pass" computation the spec compares the two-region merge against. -/
def singleScanEmit (cfg : TimingConfig) (jet : CaloJet) (hits : List EcalRecHit) :
    ℚ × ℚ × ℕ :=
  let a := jetTimeFromEcalCells cfg jet hits ⟨0, 0, 0⟩
  (if a.totalEmEnergyCell > 0 then a.weightedTimeCell else -50, a.totalEmEnergyCell, a.nCells)

/-- The spec's per-cell rejection predicate, written as one disjunction:
a disqualifying quality flag, energy strictly below threshold,
non-positive or too-large time uncertainty, too-large |time|, or squared
angular distance to the jet axis strictly above the matching radius squared. -/
def cellRejected (cfg : TimingConfig) (jet : CaloJet) (rh : EcalRecHit) : Prop :=
  rh.kSaturated = true ∨ rh.kLeadingEdgeRecovered = true ∨ rh.kPoorReco = true ∨
    rh.kWeird = true ∨ rh.kDiWeird = true ∨
    rh.energy < cfg.ecalCellEnergyThresh ∨
    rh.timeError ≤ 0 ∨ rh.timeError > cfg.ecalCellTimeErrorThresh ∨
    |rh.time| > cfg.ecalCellTimeThresh ∨
    deltaR2 jet.eta jet.phi rh.pos.eta rh.pos.phi > cfg.matchingRadius2

instance (cfg : TimingConfig) (jet : CaloJet) (rh : EcalRecHit) :
    Decidable (cellRejected cfg jet rh) := by
  unfold cellRejected; infer_instance

/-- The qualifying cells of a hit collection: those not rejected. -/
def qualifying (cfg : TimingConfig) (jet : CaloJet) (hits : List EcalRecHit) :
    List EcalRecHit :=
  hits.filter fun rh => decide (¬ cellRejected cfg jet rh)

/-- Σ time·energy·sin θ over the qualifying cells. -/
def timeNumerator (cfg : TimingConfig) (jet : CaloJet) (hits : List EcalRecHit) : ℚ :=
  ((qualifying cfg jet hits).map fun rh => rh.time * rh.energy * rh.pos.sinTheta).sum

/-- Σ energy·sin θ over the qualifying cells. -/
def energySum (cfg : TimingConfig) (jet : CaloJet) (hits : List EcalRecHit) : ℚ :=
  ((qualifying cfg jet hits).map fun rh => rh.energy * rh.pos.sinTheta).sum

/-! ### HLTPFDiJetCorrCheckerWithDiTau -/

/-- A PF jet: the four-momentum components used for the invariant-mass cut and
the pt sort, plus the pseudo-angular direction used by `deltaR2` (in the
source, `eta()`/`phi()` of the four-momentum). -/
structure PFJet where
  px : ℚ
  py : ℚ
  pz : ℚ
  energy : ℚ
  eta : ℚ
  phi : ℚ
deriving DecidableEq

/-- A PF tau from the upstream filter: four-momentum components for the pt
cut, plus the pseudo-angular direction used by `deltaR2`. -/
structure PFTau where
  px : ℚ
  py : ℚ
  pz : ℚ
  energy : ℚ
  eta : ℚ
  phi : ℚ
deriving DecidableEq

/-- Squared transverse momentum px² + py² of a jet (pt() is its square root). -/
def PFJet.pt2 (j : PFJet) : ℚ := j.px ^ 2 + j.py ^ 2

/-- Squared transverse momentum px² + py² of a tau. -/
def PFTau.pt2 (t : PFTau) : ℚ := t.px ^ 2 + t.py ^ 2

/-- Signed square `x ↦ sign(x)·x²`, the strictly monotone image under which
the square-root-free mass comparison is carried out. -/
def signedSq (x : ℚ) : ℚ := if x < 0 then -(x ^ 2) else x ^ 2

/-- The Minkowski norm squared E² − px² − py² − pz² of the summed
four-momentum `j1.p4() + j2.p4()`. -/
def invMass2 (j1 j2 : PFJet) : ℚ :=
  (j1.energy + j2.energy) ^ 2 - (j1.px + j2.px) ^ 2 - (j1.py + j2.py) ^ 2 - (j1.pz + j2.pz) ^ 2

/-- `(j1.p4() + j2.p4()).M() < mjjMin`.  `M()` is `sign(mm)·√|mm|` of the
Minkowski norm squared `mm`, and `t ↦ sign(t)·√|t|` is strictly monotone, so
the comparison is equivalent to `mm < sign(mjjMin)·mjjMin²`, exactly. -/
def massBelowMin (j1 j2 : PFJet) (mjjMin : ℚ) : Bool :=
  decide (invMass2 j1 j2 < signedSq mjjMin)

/-- `tau.pt() < c`: since `pt() = √pt2 ≥ 0`, this holds iff `c` is positive
and `pt2 < c²`, exactly. -/
def tauPtBelow (t : PFTau) (c : ℚ) : Bool :=
  decide (0 < c ∧ t.pt2 < c ^ 2)

/-- `reco::deltaR2(tau.p4(), jet.p4()) < r2`. -/
def tauJetClose (t : PFTau) (j : PFJet) (r2 : ℚ) : Bool :=
  decide (deltaR2 t.eta t.phi j.eta j.phi < r2)

/-- The configuration record of `HLTPFDiJetCorrCheckerWithDiTau`. -/
structure FilterConfig where
  extraTauPtCut : ℚ
  mjjMin : ℚ
  dRmin : ℚ
deriving DecidableEq

/-- `matchingR2_ = pow(dRmin, 2)`, squared in the constructor. -/
def FilterConfig.matchingR2 (cfg : FilterConfig) : ℚ := cfg.dRmin ^ 2

/-- All ordered pairs (earlier element, later element) of a list, in the
nested-loop enumeration order `i1 < i2`. -/
def sublistPairs {α : Type} : List α → List (α × α)
  | [] => []
  | x :: xs => (xs.map fun y => (x, y)) ++ sublistPairs xs

/-- Body of the two tau loops for a fixed tau pair: `t1` and `t2` each fail
every ΔR²-closeness `continue` against both jets, and not both taus are below
the extra pt cut. -/
def tauPairOK (cfg : FilterConfig) (j1 j2 : PFJet) (t1 t2 : PFTau) : Bool :=
  !tauJetClose t1 j1 cfg.matchingR2 && !tauJetClose t1 j2 cfg.matchingR2 &&
    !tauJetClose t2 j1 cfg.matchingR2 && !tauJetClose t2 j2 cfg.matchingR2 &&
    !(tauPtBelow t1 cfg.extraTauPtCut && tauPtBelow t2 cfg.extraTauPtCut)

/-- The `correctComb` flag after the two tau loops: some tau pair
(`iTau1 < iTau2`) passes all the per-pair guards. -/
def correctComb (cfg : FilterConfig) (taus : List PFTau) (j1 j2 : PFJet) : Bool :=
  (sublistPairs taus).any fun p => tauPairOK cfg j1 j2 p.1 p.2

/-- A jet pair survives the mass `continue` and sets `correctComb`. -/
def pairMatched (cfg : FilterConfig) (taus : List PFTau) (j1 j2 : PFJet) : Bool :=
  !massBelowMin j1 j2 cfg.mjjMin && correctComb cfg taus j1 j2

/-- `std::set<unsigned int>::insert`: insertion into the ascending
duplicate-free list that models the set's iteration order. -/
def setInsert (i : ℕ) : List ℕ → List ℕ
  | [] => [i]
  | j :: js =>
    if i < j then i :: j :: js
    else if i = j then j :: js
    else j :: setInsert i js

/-- The index set built by the double jet loop: for every pair
`iJet1 < iJet2` that is matched, insert both indices. -/
def matchedIndices (cfg : FilterConfig) (jets : List PFJet) (taus : List PFTau) : List ℕ :=
  (sublistPairs jets.enum).foldl
    (fun s p =>
      if pairMatched cfg taus p.1.2 p.2.2 then setInsert p.2.1 (setInsert p.1.1 s) else s)
    []

/-- The indices materialised into `cleanedPFJets`: the matched-index set when
both collections have more than one element, empty otherwise. -/
def retainedIndices (cfg : FilterConfig) (jets : List PFJet) (taus : List PFTau) : List ℕ :=
  if 1 < jets.length ∧ 1 < taus.length then matchedIndices cfg jets taus else []

/-- The total preorder underlying `GreaterByPt<reco::PFJet>`:
`a.pt() ≥ b.pt()`, i.e. `b.pt2 ≤ a.pt2` (both pts are nonnegative). -/
def ptGe (a b : PFJet) : Prop := b.pt2 ≤ a.pt2

instance : DecidableRel ptGe := fun a b => by unfold ptGe; infer_instance

instance : IsTotal PFJet ptGe := ⟨fun a b => le_total b.pt2 a.pt2⟩

instance : IsTrans PFJet ptGe := ⟨fun _ _ _ h1 h2 => le_trans h2 h1⟩

/-- `HLTPFDiJetCorrCheckerWithDiTau::produce`: build the matched index set,
materialise the corresponding jets in ascending index order, and sort the
result with the `GreaterByPt` comparator (`std::sort` produces some
`ptGe`-sorted permutation; insertion sort is one conforming refinement). -/
def produceDiJet (cfg : FilterConfig) (jets : List PFJet) (taus : List PFTau) : List PFJet :=
  ((retainedIndices cfg jets taus).filterMap fun i => jets[i]?).insertionSort ptGe

/-! #### Concrete inputs used by counterexamples and witnesses -/

/-- A jet sitting at the origin of the (η, φ) plane. -/
def jet0 : CaloJet := ⟨0, 0⟩

/-- A clean hit with negative deposited energy (ECAL noise can go negative),
time 1, in-range uncertainty, at the jet axis. -/
def hitNeg : EcalRecHit := ⟨-1, 1, 1, false, false, false, false, false, ⟨0, 0, 1⟩⟩

/-- A clean hit with negative deposited energy and time 5, at the jet axis. -/
def hitNegT5 : EcalRecHit := ⟨-1, 5, 1, false, false, false, false, false, ⟨0, 0, 1⟩⟩

/-- A clean hit with energy 3 and time 1, at the jet axis. -/
def hitPos : EcalRecHit := ⟨3, 1, 1, false, false, false, false, false, ⟨0, 0, 1⟩⟩

/-- A clean hit with energy 2 and time 3, at the jet axis. -/
def hitPos2 : EcalRecHit := ⟨2, 3, 1, false, false, false, false, false, ⟨0, 0, 1⟩⟩

/-- Both regions enabled; energy threshold −2 (the module does not validate
configuration, negative thresholds are accepted as-is), permissive time and
uncertainty thresholds, matching radius² 1. -/
def cfgBoth : TimingConfig := ⟨true, true, -2, 100, 100, 1⟩

/-- Barrel region only, energy threshold −2. -/
def cfgBarrel : TimingConfig := ⟨true, false, -2, 100, 100, 1⟩

/-- Barrel region only, energy threshold 0. -/
def cfgBarrelW : TimingConfig := ⟨true, false, 0, 100, 100, 1⟩

/-- A jet with pt 3 at (η, φ) = (0, 0). -/
def jetLo : PFJet := ⟨3, 0, 0, 3, 0, 0⟩

/-- A jet with pt 4, back-to-back with `jetLo` in momentum, at (η, φ) = (0, 2);
the pair mass² is 48. -/
def jetHi : PFJet := ⟨-4, 0, 0, 4, 0, 2⟩

/-- A tau with pt 1, far from both jets at η = 5. -/
def tauFar1 : PFTau := ⟨1, 0, 0, 1, 5, 0⟩

/-- A tau with pt 1, far from both jets at η = −5. -/
def tauFar2 : PFTau := ⟨1, 0, 0, 1, -5, 0⟩

/-- Filter configuration: extra tau pt cut 1, mjjMin 1, dRmin 1. -/
def cfgDiJet : FilterConfig := ⟨1, 1, 1⟩

/-- Filter configuration with mjjMin 10 (pair mass² 48 < 10² fails the cut). -/
def cfgDiJetHi : FilterConfig := ⟨1, 10, 1⟩

/-! #### Characterisation of the scan -/

/-- The accumulator produced by accepting one cell. -/
def accept (acc : Accum) (rh : EcalRecHit) : Accum :=
  { weightedTimeCell := acc.weightedTimeCell + rh.time * rh.energy * rh.pos.sinTheta
    totalEmEnergyCell := acc.totalEmEnergyCell + rh.energy * rh.pos.sinTheta
    nCells := acc.nCells + 1 }

lemma cellStep_char (cfg : TimingConfig) (jet : CaloJet) (acc : Accum) (rh : EcalRecHit) :
    cellStep cfg jet acc rh = if cellRejected cfg jet rh then acc else accept acc rh := by
  simp only [cellStep, cellRejected, accept, Bool.or_eq_true]
  split_ifs <;> first | rfl | tauto

lemma qualifying_nil (cfg : TimingConfig) (jet : CaloJet) : qualifying cfg jet [] = [] := rfl

lemma qualifying_cons (cfg : TimingConfig) (jet : CaloJet) (rh : EcalRecHit)
    (l : List EcalRecHit) :
    qualifying cfg jet (rh :: l) =
      if cellRejected cfg jet rh then qualifying cfg jet l
      else rh :: qualifying cfg jet l := by
  by_cases h : cellRejected cfg jet rh <;> simp [qualifying, List.filter_cons, h]

lemma qualifying_append (cfg : TimingConfig) (jet : CaloJet) (l1 l2 : List EcalRecHit) :
    qualifying cfg jet (l1 ++ l2) = qualifying cfg jet l1 ++ qualifying cfg jet l2 := by
  simp [qualifying, List.filter_append]

lemma timeNumerator_append (cfg : TimingConfig) (jet : CaloJet) (l1 l2 : List EcalRecHit) :
    timeNumerator cfg jet (l1 ++ l2) = timeNumerator cfg jet l1 + timeNumerator cfg jet l2 := by
  simp [timeNumerator, qualifying_append]

lemma energySum_append (cfg : TimingConfig) (jet : CaloJet) (l1 l2 : List EcalRecHit) :
    energySum cfg jet (l1 ++ l2) = energySum cfg jet l1 + energySum cfg jet l2 := by
  simp [energySum, qualifying_append]

/-- The scan of `jetTimeFromEcalCells` adds exactly the qualifying sums onto
the incoming accumulators. -/
lemma foldl_cellStep_char (cfg : TimingConfig) (jet : CaloJet) :
    ∀ (l : List EcalRecHit) (acc : Accum),
      l.foldl (cellStep cfg jet) acc =
        ⟨acc.weightedTimeCell + timeNumerator cfg jet l,
          acc.totalEmEnergyCell + energySum cfg jet l,
          acc.nCells + (qualifying cfg jet l).length⟩
  | [], acc => by simp [timeNumerator, energySum, qualifying_nil]
  | rh :: l, acc => by
    rw [List.foldl_cons, cellStep_char, foldl_cellStep_char cfg jet l]
    by_cases h : cellRejected cfg jet rh
    · simp [h, timeNumerator, energySum, qualifying_cons]
    · simp only [h, if_false, timeNumerator, energySum, qualifying_cons, accept,
        List.map_cons, List.sum_cons, List.length_cons, Accum.mk.injEq]
      refine ⟨by ring, by ring, by omega⟩

/-- Closed form of `jetTimeFromEcalCells`. -/
lemma jetTimeFromEcalCells_char (cfg : TimingConfig) (jet : CaloJet) (l : List EcalRecHit)
    (acc : Accum) :
    jetTimeFromEcalCells cfg jet l acc =
      if acc.totalEmEnergyCell + energySum cfg jet l > 0 then
        ⟨(acc.weightedTimeCell + timeNumerator cfg jet l) /
            (acc.totalEmEnergyCell + energySum cfg jet l),
          acc.totalEmEnergyCell + energySum cfg jet l,
          acc.nCells + (qualifying cfg jet l).length⟩
      else
        ⟨acc.weightedTimeCell + timeNumerator cfg jet l,
          acc.totalEmEnergyCell + energySum cfg jet l,
          acc.nCells + (qualifying cfg jet l).length⟩ := by
  by_cases h : acc.totalEmEnergyCell + energySum cfg jet l > 0 <;>
    simp only [jetTimeFromEcalCells, foldl_cellStep_char, h, if_true, if_false, ite_true,
      ite_false, gt_iff_lt]

lemma energySum_of_qualifying_nil (cfg : TimingConfig) (jet : CaloJet) {l : List EcalRecHit}
    (h : qualifying cfg jet l = []) : energySum cfg jet l = 0 := by
  simp [energySum, h]

lemma timeNumerator_of_qualifying_nil (cfg : TimingConfig) (jet : CaloJet) {l : List EcalRecHit}
    (h : qualifying cfg jet l = []) : timeNumerator cfg jet l = 0 := by
  simp [timeNumerator, h]

lemma energySum_perm (cfg : TimingConfig) (jet : CaloJet) {l1 l2 : List EcalRecHit}
    (h : l1.Perm l2) : energySum cfg jet l1 = energySum cfg jet l2 :=
  ((h.filter _).map _).sum_eq

lemma timeNumerator_perm (cfg : TimingConfig) (jet : CaloJet) {l1 l2 : List EcalRecHit}
    (h : l1.Perm l2) : timeNumerator cfg jet l1 = timeNumerator cfg jet l2 :=
  ((h.filter _).map _).sum_eq

/-! #### The per-jet driver -/

lemma produceJet_nCells (cfg : TimingConfig) (jet : CaloJet) (eb ee : List EcalRecHit) :
    (produceJet cfg jet eb ee).2.2 =
      (if cfg.barrelJets then (qualifying cfg jet eb).length else 0) +
        (if cfg.endcapJets then (qualifying cfg jet ee).length else 0) := by
  cases hb : cfg.barrelJets <;> cases he : cfg.endcapJets <;>
    simp [produceJet, jetTimeFromEcalCells_char, hb, he] <;> split_ifs <;> simp

lemma produceJet_of_no_qualifying (cfg : TimingConfig) (jet : CaloJet) (eb ee : List EcalRecHit)
    (hb0 : cfg.barrelJets = true → qualifying cfg jet eb = [])
    (he0 : cfg.endcapJets = true → qualifying cfg jet ee = []) :
    produceJet cfg jet eb ee = (-50, 0, 0) := by
  cases hb : cfg.barrelJets <;> cases he : cfg.endcapJets
  · simp [produceJet, hb, he]
  · have hq := he0 he
    simp [produceJet, hb, he, jetTimeFromEcalCells_char,
      energySum_of_qualifying_nil _ _ hq, timeNumerator_of_qualifying_nil _ _ hq, hq]
  · have hq := hb0 hb
    simp [produceJet, hb, he, jetTimeFromEcalCells_char,
      energySum_of_qualifying_nil _ _ hq, timeNumerator_of_qualifying_nil _ _ hq, hq]
  · have hqb := hb0 hb
    have hqe := he0 he
    simp [produceJet, hb, he, jetTimeFromEcalCells_char,
      energySum_of_qualifying_nil _ _ hqb, timeNumerator_of_qualifying_nil _ _ hqb, hqb,
      energySum_of_qualifying_nil _ _ hqe, timeNumerator_of_qualifying_nil _ _ hqe, hqe]

/-! #### Claims about HLTCaloJetTimingProducer -/

/-- C4: a scanned cell contributes to the accumulators exactly when it is not
rejected: `cellStep` equals the rejection-guarded accumulation, where
`cellRejected` is the disjunction of the five disqualifying quality flags,
energy strictly below the energy threshold, time uncertainty ≤ 0 or strictly
above the uncertainty threshold, |time| strictly above the time threshold, and
squared angular distance to the jet axis strictly above the matching-radius²
threshold — so a cell exactly at the energy threshold or exactly at the
matching radius is accepted. -/
theorem C4_cell_selection (cfg : TimingConfig) (jet : CaloJet) (acc : Accum)
    (rh : EcalRecHit) :
    cellStep cfg jet acc rh = if cellRejected cfg jet rh then acc else accept acc rh :=
  cellStep_char cfg jet acc rh

/-- C7: if no cell of any enabled region passes the per-cell predicates, or
equivalently if the emitted qualifying-cell count is 0, the per-jet result is
exactly (−50, 0, 0) — in particular count = 0 forces energy = 0 and the
sentinel time −50. -/
theorem C7_sentinel_when_no_cells (cfg : TimingConfig) (jet : CaloJet)
    (eb ee : List EcalRecHit)
    (h : ((cfg.barrelJets = true → qualifying cfg jet eb = []) ∧
           (cfg.endcapJets = true → qualifying cfg jet ee = [])) ∨
         (produceJet cfg jet eb ee).2.2 = 0) :
    produceJet cfg jet eb ee = (-50, 0, 0) := by
  rcases h with ⟨hb0, he0⟩ | h0
  · exact produceJet_of_no_qualifying cfg jet eb ee hb0 he0
  · rw [produceJet_nCells] at h0
    apply produceJet_of_no_qualifying
    · intro hb
      rw [hb, if_pos rfl] at h0
      exact List.length_eq_zero.mp (by omega)
    · intro he
      rw [he, if_pos rfl] at h0
      exact List.length_eq_zero.mp (by omega)

theorem C7_sentinel_when_no_cells_witness :
    produceJet cfgBoth jet0 [] [] = (-50, 0, 0) :=
  C7_sentinel_when_no_cells cfgBoth jet0 [] [] (Or.inl ⟨fun _ => rfl, fun _ => rfl⟩)

/-- C10: with the barrel region disabled and the endcap region enabled, the
per-jet driver yields exactly the endcap-only result: the rescale step
multiplies the initial zero weighted-time accumulator by the zero energy
accumulator, a no-op, so pure-endcap mode equals a single endcap scan. -/
theorem C10_pure_endcap (eTh tTh teTh mR2 : ℚ) (jet : CaloJet) (eb ee : List EcalRecHit) :
    produceJet ⟨false, true, eTh, tTh, teTh, mR2⟩ jet eb ee =
      singleScanEmit ⟨false, true, eTh, tTh, teTh, mR2⟩ jet ee := by
  simp [produceJet, singleScanEmit]

/-- C2 as stated is false on the code: with energy threshold −2 (the module
accepts any configured threshold), the single cell of energy −1, time 5 at the
jet axis passes all five per-cell predicates, yet the emitted time is the
sentinel −50 while Σ(time·energy·sinθ)/Σ(energy·sinθ) = 5. -/
theorem C2_counterexample :
    (qualifying cfgBarrel jet0 [hitNegT5]).length = 1 ∧
      (produceJet cfgBarrel jet0 [hitNegT5] []).1 ≠
        timeNumerator cfgBarrel jet0 [hitNegT5] / energySum cfgBarrel jet0 [hitNegT5] := by
  constructor <;>
    norm_num [produceJet, jetTimeFromEcalCells, cellStep, qualifying, cellRejected,
      List.filter_cons, timeNumerator, energySum, deltaR2, cfgBarrel, jet0, hitNegT5]

/-- C2 amended: when the energy-weighted denominator Σ(energy·sinθ) over the
qualifying cells is positive (rather than merely some cell qualifying), the
emitted per-jet time equals Σ(time·energy·sinθ)/Σ(energy·sinθ) over exactly
the qualifying cells, and is unchanged under any permutation of the hit
collection. -/
theorem C2_amended_weighted_mean (cfg : TimingConfig) (jet : CaloJet)
    (cells cells2 ee ee2 : List EcalRecHit)
    (hb : cfg.barrelJets = true) (he : cfg.endcapJets = false)
    (hperm : cells.Perm cells2)
    (hpos : 0 < energySum cfg jet cells) :
    (produceJet cfg jet cells ee).1 =
        timeNumerator cfg jet cells / energySum cfg jet cells ∧
      (produceJet cfg jet cells2 ee2).1 = (produceJet cfg jet cells ee).1 := by
  have hE := energySum_perm cfg jet hperm
  have hW := timeNumerator_perm cfg jet hperm
  constructor
  · simp [produceJet, hb, he, jetTimeFromEcalCells_char, hpos]
  · simp [produceJet, hb, he, jetTimeFromEcalCells_char, hpos, ← hE, ← hW]

theorem C2_amended_weighted_mean_witness :
    0 < energySum cfgBarrelW jet0 [hitPos2] ∧
      (produceJet cfgBarrelW jet0 [hitPos2] []).1 =
        timeNumerator cfgBarrelW jet0 [hitPos2] / energySum cfgBarrelW jet0 [hitPos2] :=
  ⟨by norm_num [energySum, qualifying, cellRejected, List.filter_cons, deltaR2,
      cfgBarrelW, jet0, hitPos2],
    (C2_amended_weighted_mean cfgBarrelW jet0 [hitPos2] [hitPos2] [] [] rfl rfl
      (List.Perm.refl _)
      (by norm_num [energySum, qualifying, cellRejected, List.filter_cons, deltaR2,
        cfgBarrelW, jet0, hitPos2])).1⟩

/-- C1 as stated is false on the code: with energy threshold −2, a barrel cell
of energy −1 leaves the barrel energy accumulator negative, the undo-multiply
`weightedTimeCell *= totalEmEnergyCell` is then not the inverse of the
skipped division, and the two-region driver disagrees with the single-pass
scan of the concatenation. -/
theorem C1_counterexample :
    produceJet cfgBoth jet0 [hitNeg] [hitPos] ≠
      singleScanEmit cfgBoth jet0 ([hitNeg] ++ [hitPos]) := by
  norm_num [produceJet, singleScanEmit, jetTimeFromEcalCells, cellStep, deltaR2,
    Prod.ext_iff, cfgBoth, jet0, hitNeg, hitPos]

/-- C1 amended: provided the barrel scan's qualifying energy sum is positive,
or both its energy sum and weighted-time numerator are zero (as always holds
when qualifying cell weights are nonnegative — in particular when no barrel
cell qualifies), running the per-jet driver with both region flags enabled
yields the same (time, energySum, count) triple as a single scan of the
concatenation of the two collections followed by one final division. -/
theorem C1_merge_equals_single_pass (cfg : TimingConfig) (jet : CaloJet)
    (eb ee : List EcalRecHit)
    (hb : cfg.barrelJets = true) (he : cfg.endcapJets = true)
    (hbar : 0 < energySum cfg jet eb ∨
      (energySum cfg jet eb = 0 ∧ timeNumerator cfg jet eb = 0)) :
    produceJet cfg jet eb ee = singleScanEmit cfg jet (eb ++ ee) := by
  rcases hbar with hpos | ⟨hE, hW⟩
  · simp [produceJet, singleScanEmit, hb, he, jetTimeFromEcalCells_char,
      energySum_append, timeNumerator_append, qualifying_append, hpos,
      div_mul_cancel₀ _ (ne_of_gt hpos)]
  · simp [produceJet, singleScanEmit, hb, he, jetTimeFromEcalCells_char,
      energySum_append, timeNumerator_append, qualifying_append, hE, hW]

/-! #### The di-jet/di-tau filter -/

lemma mem_setInsert (a i : ℕ) : ∀ l : List ℕ, a ∈ setInsert i l ↔ a = i ∨ a ∈ l
  | [] => by simp [setInsert]
  | j :: js => by
    simp only [setInsert]
    by_cases h1 : i < j
    · rw [if_pos h1]
      simp only [List.mem_cons]
    · rw [if_neg h1]
      by_cases h2 : i = j
      · rw [if_pos h2]
        subst h2
        simp only [List.mem_cons]
        tauto
      · rw [if_neg h2]
        simp only [List.mem_cons, mem_setInsert a i js]
        tauto

lemma setInsert_pairwise (i : ℕ) :
    ∀ {l : List ℕ}, l.Pairwise (· < ·) → (setInsert i l).Pairwise (· < ·)
  | [], _ => by simp [setInsert]
  | j :: js, h => by
    obtain ⟨hj, hjs⟩ := List.pairwise_cons.mp h
    simp only [setInsert]
    by_cases h1 : i < j
    · rw [if_pos h1]
      exact List.pairwise_cons.mpr
        ⟨fun x hx => (List.mem_cons.mp hx).elim (fun hxj => hxj ▸ h1)
          (fun hxjs => lt_trans h1 (hj x hxjs)), h⟩
    · rw [if_neg h1]
      by_cases h2 : i = j
      · rw [if_pos h2]
        exact h
      · rw [if_neg h2]
        refine List.pairwise_cons.mpr ⟨fun x hx => ?_, setInsert_pairwise i hjs⟩
        rcases (mem_setInsert x i js).mp hx with rfl | hxjs
        · omega
        · exact hj x hxjs

lemma mem_foldl_matched (cfg : FilterConfig) (taus : List PFTau) :
    ∀ (pairs : List ((ℕ × PFJet) × (ℕ × PFJet))) (s : List ℕ) (i : ℕ),
      i ∈ pairs.foldl
          (fun s p =>
            if pairMatched cfg taus p.1.2 p.2.2 then setInsert p.2.1 (setInsert p.1.1 s) else s)
          s ↔
        i ∈ s ∨ ∃ p ∈ pairs, pairMatched cfg taus p.1.2 p.2.2 = true ∧ (i = p.1.1 ∨ i = p.2.1)
  | [], s, i => by simp
  | q :: pairs, s, i => by
    rw [List.foldl_cons, mem_foldl_matched cfg taus pairs _ i]
    by_cases h : pairMatched cfg taus q.1.2 q.2.2 = true
    · simp only [h, if_true, mem_setInsert]
      aesop
    · simp only [h, if_false]
      aesop

lemma foldl_matched_pairwise (cfg : FilterConfig) (taus : List PFTau) :
    ∀ (pairs : List ((ℕ × PFJet) × (ℕ × PFJet))) (s : List ℕ),
      s.Pairwise (· < ·) →
      (pairs.foldl
          (fun s p =>
            if pairMatched cfg taus p.1.2 p.2.2 then setInsert p.2.1 (setInsert p.1.1 s) else s)
          s).Pairwise (· < ·)
  | [], s, hs => hs
  | q :: pairs, s, hs => by
    rw [List.foldl_cons]
    apply foldl_matched_pairwise cfg taus pairs
    by_cases h : pairMatched cfg taus q.1.2 q.2.2 = true
    · simp only [h, if_true]
      exact setInsert_pairwise _ (setInsert_pairwise _ hs)
    · simpa only [h, if_false] using hs

lemma mem_matchedIndices {cfg : FilterConfig} {jets : List PFJet} {taus : List PFTau} {i : ℕ} :
    i ∈ matchedIndices cfg jets taus ↔
      ∃ p ∈ sublistPairs jets.enum,
        pairMatched cfg taus p.1.2 p.2.2 = true ∧ (i = p.1.1 ∨ i = p.2.1) := by
  rw [matchedIndices, mem_foldl_matched]
  simp

lemma matchedIndices_pairwise (cfg : FilterConfig) (jets : List PFJet) (taus : List PFTau) :
    (matchedIndices cfg jets taus).Pairwise (· < ·) :=
  foldl_matched_pairwise cfg taus _ [] List.Pairwise.nil

lemma sublist_of_mem_sublistPairs {α : Type} {p : α × α} :
    ∀ {l : List α}, p ∈ sublistPairs l → [p.1, p.2].Sublist l
  | [], h => by simp [sublistPairs] at h
  | x :: xs, h => by
    rcases List.mem_append.mp h with hmap | hrec
    · obtain ⟨y, hy, hxy⟩ := List.mem_map.mp hmap
      rcases hxy with rfl
      exact List.Sublist.cons₂ x (List.singleton_sublist.mpr hy)
    · exact (sublist_of_mem_sublistPairs hrec).cons x

lemma pairwise_fst_lt_enumFrom {α : Type} :
    ∀ (l : List α) (n : ℕ), (l.enumFrom n).Pairwise fun a b => a.1 < b.1
  | [], _ => by simp
  | x :: xs, n => by
    simp only [List.enumFrom_cons, List.pairwise_cons]
    exact ⟨fun b hb => lt_of_lt_of_le (Nat.lt_succ_self n) (List.le_fst_of_mem_enumFrom hb),
      pairwise_fst_lt_enumFrom xs (n + 1)⟩

lemma pairwise_fst_lt_enum {α : Type} (l : List α) :
    l.enum.Pairwise fun a b => a.1 < b.1 :=
  pairwise_fst_lt_enumFrom l 0

lemma signedSq_mono : Monotone signedSq := by
  intro a b h
  unfold signedSq
  split_ifs with ha hb
  · nlinarith
  · nlinarith
  · linarith
  · nlinarith

lemma pairMatched_mjj_mono {ptCut dR m1 m2 : ℚ} (hm : m1 ≤ m2) (taus : List PFTau)
    (j1 j2 : PFJet) (h : pairMatched ⟨ptCut, m2, dR⟩ taus j1 j2 = true) :
    pairMatched ⟨ptCut, m1, dR⟩ taus j1 j2 = true := by
  simp only [pairMatched, Bool.and_eq_true, Bool.not_eq_true'] at h ⊢
  obtain ⟨hmass, hcomb⟩ := h
  refine ⟨?_, hcomb⟩
  simp only [massBelowMin, decide_eq_false_iff_not, not_lt] at hmass ⊢
  exact le_trans (signedSq_mono hm) hmass

/-! #### Claims about HLTPFDiJetCorrCheckerWithDiTau -/

/-- C8: with fewer than 2 jets or fewer than 2 taus the filter emits an empty
jet collection. -/
theorem C8_small_input_empty (cfg : FilterConfig) (jets : List PFJet) (taus : List PFTau)
    (h : jets.length < 2 ∨ taus.length < 2) :
    produceDiJet cfg jets taus = [] := by
  have hg : ¬ (1 < jets.length ∧ 1 < taus.length) := by omega
  simp [produceDiJet, retainedIndices, hg]

theorem C8_small_input_empty_witness :
    produceDiJet cfgDiJet [jetLo] [tauFar1, tauFar2] = [] :=
  C8_small_input_empty cfgDiJet [jetLo] [tauFar1, tauFar2] (Or.inl (by norm_num))

/-- C6: for fixed jets, taus, extraTauPtCut and dRmin, raising mjjMin can only
shrink or preserve the retained jet set. -/
theorem C6_mjjMin_monotone (ptCut dR m1 m2 : ℚ) (jets : List PFJet) (taus : List PFTau)
    (hm : m1 ≤ m2) (j : PFJet)
    (hj : j ∈ produceDiJet ⟨ptCut, m2, dR⟩ jets taus) :
    j ∈ produceDiJet ⟨ptCut, m1, dR⟩ jets taus := by
  rw [produceDiJet, List.mem_insertionSort, List.mem_filterMap] at hj ⊢
  obtain ⟨i, hi, hget⟩ := hj
  refine ⟨i, ?_, hget⟩
  rw [retainedIndices] at hi ⊢
  by_cases hg : 1 < jets.length ∧ 1 < taus.length
  · rw [if_pos hg] at hi ⊢
    rw [mem_matchedIndices] at hi ⊢
    obtain ⟨p, hp, hmatch, hior⟩ := hi
    exact ⟨p, hp, pairMatched_mjj_mono hm _ _ _ hmatch, hior⟩
  · rw [if_neg hg] at hi
    exact absurd hi (List.not_mem_nil i)

theorem C6_mjjMin_monotone_witness :
    jetHi ∈ produceDiJet ⟨1, 1, 1⟩ [jetLo, jetHi] [tauFar1, tauFar2] :=
  C6_mjjMin_monotone 1 1 1 2 [jetLo, jetHi] [tauFar1, tauFar2] (by norm_num) jetHi
    (by norm_num [produceDiJet, retainedIndices, matchedIndices, sublistPairs, pairMatched,
      correctComb, tauPairOK, tauJetClose, tauPtBelow, massBelowMin, invMass2, signedSq,
      deltaR2, FilterConfig.matchingR2, setInsert, ptGe, PFJet.pt2, PFTau.pt2,
      jetLo, jetHi, tauFar1, tauFar2, List.enum, List.enumFrom])

/-- C9: the emitted collection is a permutation of the jets materialised from
the retained index list; that list is duplicate-free, and every retained index
participated in at least one jet pair that passed the invariant-mass cut and
owned a qualifying tau pair. -/
theorem C9_retained_index_semantics (cfg : FilterConfig) (jets : List PFJet)
    (taus : List PFTau) :
    (produceDiJet cfg jets taus).Perm
        ((retainedIndices cfg jets taus).filterMap fun i => jets[i]?) ∧
      (retainedIndices cfg jets taus).Nodup ∧
      ∀ i ∈ retainedIndices cfg jets taus, ∃ a b ja jb, a < b ∧
        jets[a]? = some ja ∧ jets[b]? = some jb ∧
        pairMatched cfg taus ja jb = true ∧ (i = a ∨ i = b) := by
  refine ⟨List.perm_insertionSort ptGe _, ?_, ?_⟩
  · rw [retainedIndices]
    split_ifs
    · exact (matchedIndices_pairwise cfg jets taus).imp fun hab => ne_of_lt hab
    · exact List.nodup_nil
  · intro i hi
    rw [retainedIndices] at hi
    split_ifs at hi with hg
    · rw [mem_matchedIndices] at hi
      obtain ⟨p, hp, hmatch, hior⟩ := hi
      have hsub := sublist_of_mem_sublistPairs hp
      have hpw := (pairwise_fst_lt_enum jets).sublist hsub
      have hlt : p.1.1 < p.2.1 := by
        simpa using List.pairwise_cons.mp hpw |>.1 p.2 (by simp)
      have h1 : p.1 ∈ jets.enum := hsub.subset (by simp)
      have h2 : p.2 ∈ jets.enum := hsub.subset (by simp)
      exact ⟨p.1.1, p.2.1, p.1.2, p.2.2, hlt,
        List.mem_enum_iff_getElem?.mp h1, List.mem_enum_iff_getElem?.mp h2, hmatch, hior⟩
    · exact absurd hi (List.not_mem_nil i)

theorem C9_retained_index_semantics_witness :
    ∃ a b ja jb, a < b ∧ ([jetLo, jetHi][a]? = some ja) ∧ ([jetLo, jetHi][b]? = some jb) ∧
      pairMatched cfgDiJet [tauFar1, tauFar2] ja jb = true ∧ (0 = a ∨ 0 = b) :=
  (C9_retained_index_semantics cfgDiJet [jetLo, jetHi] [tauFar1, tauFar2]).2.2 0
    (by norm_num [retainedIndices, matchedIndices, sublistPairs, pairMatched,
      correctComb, tauPairOK, tauJetClose, tauPtBelow, massBelowMin, invMass2, signedSq,
      deltaR2, FilterConfig.matchingR2, setInsert, PFJet.pt2, PFTau.pt2,
      jetLo, jetHi, tauFar1, tauFar2, cfgDiJet, List.enum, List.enumFrom])

/-- C5 as stated is false on the code: both jets of a qualifying event are
retained and the output comes back sorted by the `GreaterByPt` comparator, so
the jet of pt 4 precedes the jet of pt 3 and the sequence of pts is not
ascending. -/
theorem C5_counterexample :
    ¬ (produceDiJet cfgDiJet [jetLo, jetHi] [tauFar1, tauFar2]).Chain'
        fun a b => a.pt2 ≤ b.pt2 := by
  have hout : produceDiJet cfgDiJet [jetLo, jetHi] [tauFar1, tauFar2] = [jetHi, jetLo] := by
    norm_num [produceDiJet, retainedIndices, matchedIndices, sublistPairs, pairMatched,
      correctComb, tauPairOK, tauJetClose, tauPtBelow, massBelowMin, invMass2, signedSq,
      deltaR2, FilterConfig.matchingR2, setInsert, ptGe, PFJet.pt2, PFTau.pt2,
      jetLo, jetHi, tauFar1, tauFar2, cfgDiJet, List.enum, List.enumFrom]
  rw [hout]
  norm_num [List.chain'_cons, PFJet.pt2, jetLo, jetHi]

/-- C5 amended: the emitted jet collection is sorted descending by transverse
momentum — each element's pt is greater than or equal to the next element's
pt. -/
theorem C5_amended_sorted_descending (cfg : FilterConfig) (jets : List PFJet)
    (taus : List PFTau) :
    (produceDiJet cfg jets taus).Chain' fun a b => b.pt2 ≤ a.pt2 := by
  have hs : (produceDiJet cfg jets taus).Pairwise ptGe :=
    List.sorted_insertionSort ptGe _
  exact List.Pairwise.chain' hs

/-- C3 evaluation at the failing input: the two taus of the collection
coincide (their mutual ΔR² is 0, strictly below dRmin²), so no tau pair
separated from each other exists; the filter nevertheless marks the jet pair
as matched and retains both jets. -/
theorem C3_tau_overlap_eval :
    pairMatched cfgDiJet [tauFar1, tauFar1] jetLo jetHi = true ∧
      produceDiJet cfgDiJet [jetLo, jetHi] [tauFar1, tauFar1] = [jetHi, jetLo] ∧
      ∀ p ∈ sublistPairs [tauFar1, tauFar1],
        deltaR2 p.1.eta p.1.phi p.2.eta p.2.phi < cfgDiJet.matchingR2 := by
  refine ⟨?_, ?_, ?_⟩
  · norm_num [pairMatched, correctComb, tauPairOK, tauJetClose, tauPtBelow, massBelowMin,
      invMass2, signedSq, deltaR2, FilterConfig.matchingR2, sublistPairs, PFJet.pt2,
      PFTau.pt2, jetLo, jetHi, tauFar1, cfgDiJet]
  · norm_num [produceDiJet, retainedIndices, matchedIndices, sublistPairs, pairMatched,
      correctComb, tauPairOK, tauJetClose, tauPtBelow, massBelowMin, invMass2, signedSq,
      deltaR2, FilterConfig.matchingR2, setInsert, ptGe, PFJet.pt2, PFTau.pt2,
      jetLo, jetHi, tauFar1, cfgDiJet, List.enum, List.enumFrom]
  · norm_num [sublistPairs, deltaR2, FilterConfig.matchingR2, cfgDiJet, tauFar1]

theorem C1_merge_equals_single_pass_witness :
    0 < energySum cfgBoth jet0 [hitPos] ∧
      produceJet cfgBoth jet0 [hitPos] [hitPos2] =
        singleScanEmit cfgBoth jet0 ([hitPos] ++ [hitPos2]) :=
  ⟨by norm_num [energySum, qualifying, cellRejected, List.filter_cons, deltaR2,
      cfgBoth, jet0, hitPos],
    C1_merge_equals_single_pass cfgBoth jet0 [hitPos] [hitPos2] rfl rfl
      (Or.inl (by norm_num [energySum, qualifying, cellRejected, List.filter_cons, deltaR2,
        cfgBoth, jet0, hitPos]))⟩


end HLT
